import Mathlib

/-!
Verification of the user-listing query engine of
`synapse/storage/databases/main/__init__.py`: the paginated, filtered
user query `get_users_paginate` (its transaction body
`get_users_paginate_txn`) and the startup consistency check
`check_database_before_upgrade`.

The SQL executed by the transaction is embedded shallowly: tables are
lists of records, the WHERE clauses are evaluated with SQL three-valued
logic where NULL matters, LIKE patterns are matched by an executable
matcher, and ORDER BY / LIMIT / OFFSET become an explicit sort followed
by `drop`/`take`.
-/

/-- Sort direction (`synapse.api.constants.Direction`): `FORWARDS` gives
`ASC`, `BACKWARDS` gives `DESC` in `get_users_paginate_txn`. -/
inductive Direction where
  | forwards
  | backwards
deriving DecidableEq

/-- A row of the `users` table, restricted to the columns that the
queries in this file read.  Nullable columns are `Option`. -/
structure User where
  name : String
  is_guest : Bool
  admin : Bool
  user_type : Option String
  deactivated : Bool
  shadow_banned : Option Bool
  approved : Option Bool
  creation_ts : Int
deriving DecidableEq

/-- A row of the `profiles` table, restricted to the columns used. -/
structure Profile where
  full_user_id : String
  displayname : Option String
  avatar_url : Option String
deriving DecidableEq

/-- The stored state the two queries run against: the `users` table, the
`profiles` table and the set of user ids in `erased_users`. -/
structure DB where
  users : List User
  profiles : List Profile
  erased_users : List String
deriving DecidableEq

/-- One row of `FROM users AS u LEFT JOIN profiles AS p ON u.name =
p.full_user_id LEFT JOIN erased_users AS eu ON u.name = eu.user_id`:
the user, its profile when one matches, and whether the erasure join
matched. -/
structure JoinedRow where
  u : User
  p : Option Profile
  erased : Bool
deriving DecidableEq

/-- The three-way left join of `sql_base`, one joined row per user. -/
def joinRows (db : DB) : List JoinedRow :=
  db.users.map fun u =>
    ⟨u, db.profiles.find? (fun p => p.full_user_id == u.name),
      db.erased_users.contains u.name⟩

/-- Characters of the ASCII lowercasing performed by Python `str.lower()`
on the search terms and by SQL `LOWER` on the display name. -/
def lowerData (s : String) : List Char := s.data.map Char.toLower

/-- SQL `LIKE` pattern matching on character lists: a percent sign
matches any sequence, an underscore matches one character, any other
character matches itself. -/
def likeMatch : List Char → List Char → Bool
  | [], s => s.isEmpty
  | c :: ps, s =>
    if c = '%' then s.tails.any (fun s2 => likeMatch ps s2)
    else
      match s with
      | [] => false
      | d :: s' => if c = '_' then likeMatch ps s' else (c = d) && likeMatch ps s'

/-- Truthiness of an optional string argument as the Python `if name:` /
`elif user_id:` tests see it: `None` and the empty string are falsy. -/
def truthyStr : Option String → Bool
  | none => false
  | some s => !(s == "")

/-- SQL three-valued NOT. -/
def not3 : Option Bool → Option Bool := Option.map not

/-- SQL three-valued OR. -/
def or3 : Option Bool → Option Bool → Option Bool
  | some true, _ => some true
  | _, some true => some true
  | some false, some false => some false
  | _, _ => none

/-- A WHERE condition keeps a row only when it evaluates to true:
NULL and false both drop the row. -/
def isTrue3 : Option Bool → Bool
  | some true => true
  | _ => false

/-- Three-valued evaluation of the membership test produced by
`make_in_list_sql_clause` on column `u.user_type`: over an empty list it
is false even for NULL, otherwise NULL input yields NULL. -/
def inList3 (v : Option String) (l : List String) : Option Bool :=
  if l.isEmpty then some false
  else
    match v with
    | none => none
    | some t => some (l.contains t)

/-- Evaluation of the clause `(name LIKE ? OR LOWER(displayname) LIKE ?)`
with arguments `"@%" + name.lower() + "%:%"` and
`"%" + name.lower() + "%"`.  A missing profile or a NULL display name
makes the second operand NULL, which keeps the row only when the first
operand holds. -/
def nameClause (term : String) (j : JoinedRow) : Bool :=
  likeMatch ('@' :: '%' :: (lowerData term ++ '%' :: ':' :: ['%'])) j.u.name.data
    || (match j.p with
        | none => false
        | some pr =>
          match pr.displayname with
          | none => false
          | some d => likeMatch ('%' :: (lowerData term ++ ['%'])) (lowerData d))

/-- Evaluation of the clause `name LIKE ?` with argument
`"%" + user_id.lower() + "%"`. -/
def userIdClause (term : String) (j : JoinedRow) : Bool :=
  likeMatch ('%' :: (lowerData term ++ ['%'])) j.u.name.data

/-- The `if name: ... elif user_id: ...` search clause: a truthy `name`
adds the name clause and makes `user_id` irrelevant; otherwise a truthy
`user_id` adds the handle substring clause; otherwise no clause. -/
def nameOrUserIdClause (name user_id : Option String) (j : JoinedRow) : Bool :=
  if truthyStr name then nameClause (name.getD "") j
  else if truthyStr user_id then userIdClause (user_id.getD "") j
  else true

/-- The loop over `not_user_types` that records whether the empty-string
sentinel occurred and collects the remaining literal tags in order. -/
def splitNotUserTypes : List String → Bool × List String
  | [] => (false, [])
  | t :: ts =>
    let r := splitNotUserTypes ts
    if t = "" then (true, r.2) else (r.1, t :: r.2)

/-- Evaluation of the excluded-user-type clause on a row whose
`user_type` column holds `ut`: the `[""]` special case becomes
`user_type IS NOT NULL`; otherwise the negated IN-list over the literal
tags, with `OR u.user_type IS NULL` appended when the sentinel was
absent. -/
def notUserTypesClause (nuts : List String) (ut : Option String) : Bool :=
  if nuts = [""] then ut.isSome
  else
    let s := splitNotUserTypes nuts
    if s.1 then isTrue3 (not3 (inList3 ut s.2))
    else isTrue3 (or3 (not3 (inList3 ut s.2)) (some ut.isNone))

/-- Conjunction of all WHERE clauses that `get_users_paginate_txn` puts
into `filters`, evaluated on one joined row.  An absent or empty
`not_user_types` list is falsy in Python and adds no clause. -/
def rowPasses (user_id name : Option String) (guests deactivated approved : Bool)
    (not_user_types : Option (List String)) (j : JoinedRow) : Bool :=
  nameOrUserIdClause name user_id j
    && (guests || !j.u.is_guest)
    && (deactivated || !j.u.deactivated)
    && (approved || j.u.approved == some false)
    && (match not_user_types with
        | none => true
        | some nuts => if nuts.isEmpty then true else notUserTypesClause nuts j.u.user_type)

/-- Modelled from the spec: the fixed enumerated set of recognized sort
columns (`UserSortOrder`, defined in `synapse/storage/databases/main/stats.py`,
a module of this repository that is not among the visible sources).
Its members are the sortable output columns of the user listing. -/
inductive UserSortOrder where
  | name
  | displayname
  | is_guest
  | admin
  | user_type
  | deactivated
  | shadow_banned
  | avatar_url
  | creation_ts
  | approved
deriving DecidableEq

/-- Modelled from the spec: `UserSortOrder(order_by)` looks the given
string up among the enum member values and fails fast on anything
unrecognized, before any filter is built. -/
def UserSortOrder.fromString (s : String) : Option UserSortOrder :=
  if s = "name" then some .name
  else if s = "displayname" then some .displayname
  else if s = "is_guest" then some .is_guest
  else if s = "admin" then some .admin
  else if s = "user_type" then some .user_type
  else if s = "deactivated" then some .deactivated
  else if s = "shadow_banned" then some .shadow_banned
  else if s = "avatar_url" then some .avatar_url
  else if s = "creation_ts" then some .creation_ts
  else if s = "approved" then some .approved
  else none

/-- A comparable ORDER BY key value: NULL sorts before integers, which
sort before strings (one fixed engine convention; each sort column is
homogeneous, so only the NULL placement of this choice is visible). -/
inductive SKey where
  | knull
  | kint (i : Int)
  | kstr (s : String)
deriving DecidableEq

/-- Non-strict comparison of ORDER BY key values. -/
def SKey.leB : SKey → SKey → Bool
  | .knull, _ => true
  | .kint _, .knull => false
  | .kint a, .kint b => decide (a ≤ b)
  | .kint _, .kstr _ => true
  | .kstr _, .knull => false
  | .kstr _, .kint _ => false
  | .kstr a, .kstr b => decide (a.data ≤ b.data)

/-- Booleans stored as 0/1 compare as their integer value. -/
def boolKey (b : Bool) : SKey := .kint (if b then 1 else 0)

/-- Key of a nullable string column. -/
def optStrKey : Option String → SKey
  | none => .knull
  | some s => .kstr s

/-- Key of a nullable boolean column. -/
def optBoolKey : Option Bool → SKey
  | none => .knull
  | some b => boolKey b

/-- One row of the SELECT list of the page query: `name, user_type,
is_guest, admin, deactivated, shadow_banned, displayname, avatar_url,
creation_ts * 1000 as creation_ts, approved, eu.user_id is not null as
erased`. -/
structure OutRow where
  name : String
  user_type : Option String
  is_guest : Bool
  admin : Bool
  deactivated : Bool
  shadow_banned : Option Bool
  displayname : Option String
  avatar_url : Option String
  creation_ts : Int
  approved : Option Bool
  erased : Bool
deriving DecidableEq

/-- Projection of a joined row to the SELECT list of the page query. -/
def selectRow (j : JoinedRow) : OutRow :=
  { name := j.u.name,
    user_type := j.u.user_type,
    is_guest := j.u.is_guest,
    admin := j.u.admin,
    deactivated := j.u.deactivated,
    shadow_banned := j.u.shadow_banned,
    displayname := j.p.bind Profile.displayname,
    avatar_url := j.p.bind Profile.avatar_url,
    creation_ts := j.u.creation_ts * 1000,
    approved := j.u.approved,
    erased := j.erased }

/-- ORDER BY key of an output row for each recognized sort column. -/
def outKey : UserSortOrder → OutRow → SKey
  | .name, r => .kstr r.name
  | .displayname, r => optStrKey r.displayname
  | .is_guest, r => boolKey r.is_guest
  | .admin, r => boolKey r.admin
  | .user_type, r => optStrKey r.user_type
  | .deactivated, r => boolKey r.deactivated
  | .shadow_banned, r => optBoolKey r.shadow_banned
  | .avatar_url, r => optStrKey r.avatar_url
  | .creation_ts, r => .kint r.creation_ts
  | .approved, r => optBoolKey r.approved

/-- Primary key comparison in the requested direction. -/
def dirLeB : Direction → SKey → SKey → Bool
  | .forwards, k1, k2 => SKey.leB k1 k2
  | .backwards, k1, k2 => SKey.leB k2 k1

/-- The total row order of `ORDER BY {order_by_column} {order}, u.name
ASC`: the primary key in the requested direction, ties broken by handle
ascending. -/
def rowLeB (col : UserSortOrder) (dir : Direction) (a b : OutRow) : Bool :=
  if outKey col a = outKey col b then decide (a.name.data ≤ b.name.data)
  else dirLeB dir (outKey col a) (outKey col b)

/-- The row order as a decidable relation. -/
def rowLe (col : UserSortOrder) (dir : Direction) (a b : OutRow) : Prop :=
  rowLeB col dir a b = true

instance (col : UserSortOrder) (dir : Direction) : DecidableRel (rowLe col dir) :=
  fun a b => inferInstanceAs (Decidable (rowLeB col dir a b = true))

/-- Shallow embedding of `get_users_paginate_txn`: parse the sort
column, evaluate the WHERE clauses over the three-way join, run the
count query, then the ordered page query with `LIMIT ? OFFSET ?`. -/
def get_users_paginate (db : DB) (start limit : Nat)
    (user_id name : Option String) (guests deactivated : Bool)
    (order_by : String) (direction : Direction) (approved : Bool)
    (not_user_types : Option (List String)) :
    Except String (List OutRow × Nat) :=
  match UserSortOrder.fromString order_by with
  | none => .error (order_by ++ " is not a valid UserSortOrder")
  | some col =>
    let matching := (joinRows db).filter
      (rowPasses user_id name guests deactivated approved not_user_types)
    let count := matching.length
    let sorted := (matching.map selectRow).insertionSort (rowLe col direction)
    .ok ((sorted.drop start).take limit, count)

/-- Characters after the first colon, or `none` when no colon occurs. -/
def afterFirstColon : List Char → Option (List Char)
  | [] => none
  | c :: cs => if c = ':' then some cs else afterFirstColon cs

/-- Modelled from the spec: `get_domain_from_id`
(`synapse/types.py`, not among the visible sources) derives the domain
suffix of a handle, the part after the first colon, and fails on a
handle without a colon. -/
def get_domain_from_id (s : String) : Except String String :=
  match afterFirstColon s.data with
  | none => .error ("Invalid ID: " ++ s)
  | some d => .ok ⟨d⟩

/-- The message of the fatal pre-flight error, naming the configured
server domain. -/
def upgradeErrorMessage (server_name : String) : String :=
  "Found users in database not native to " ++ server_name ++
    "!\nYou cannot change a synapse server_name after it has been configured"

/-- Shallow embedding of `check_database_before_upgrade`: look at the
first user row, if any; compare its domain with the configured server
name; raise on a mismatch. -/
def check_database_before_upgrade (users : List String) (server_name : String) :
    Except String Unit :=
  match users with
  | [] => .ok ()
  | u :: _ =>
    match get_domain_from_id u with
    | .error e => .error e
    | .ok d =>
      if d = server_name then .ok ()
      else .error (upgradeErrorMessage server_name)

/-- A one-user store used by several concrete checks. -/
def dbAlice : DB := ⟨[⟨"@alice:x", false, false, none, false, none, none, 5⟩], [], []⟩

/-- The single output row of listing `dbAlice` unfiltered. -/
def rowAlice : OutRow :=
  ⟨"@alice:x", none, false, false, false, none, none, none, 5000, none, false⟩

/-- C9: an `order_by` value that is not a recognized sort-column enum
value makes `get_users_paginate` fail fast with the enum lookup error;
the error is the same for every store and every filter combination, so
no filter clause is built and no query reaches the store. -/
theorem get_users_paginate_invalid_order_fails_fast
    (db : DB) (start limit : Nat) (user_id name : Option String)
    (guests deactivated : Bool) (order_by : String) (direction : Direction)
    (approved : Bool) (not_user_types : Option (List String))
    (h : UserSortOrder.fromString order_by = none) :
    get_users_paginate db start limit user_id name guests deactivated order_by
        direction approved not_user_types
      = .error (order_by ++ " is not a valid UserSortOrder") := by
  unfold get_users_paginate
  rw [h]

/-- Witness for C9 at a concrete unrecognized sort column. -/
theorem get_users_paginate_invalid_order_fails_fast_witness :
    UserSortOrder.fromString "foo" = none ∧
      get_users_paginate dbAlice 0 5 none none true false "foo" .forwards true none
        = .error ("foo" ++ " is not a valid UserSortOrder") :=
  ⟨by decide,
    get_users_paginate_invalid_order_fails_fast dbAlice 0 5 none none true false "foo"
      .forwards true none (by decide)⟩

/-- C8: when every inspected handle has a parseable domain, the
pre-flight check raises exactly when the store is non-empty and the
first handle's domain differs from the configured server name, and any
raised error carries the message naming the configured domain. -/
theorem check_database_before_upgrade_spec
    (users : List String) (server_name : String)
    (h : ∀ u rest, users = u :: rest → ∃ d, get_domain_from_id u = Except.ok d) :
    ((∃ e, check_database_before_upgrade users server_name = .error e) ↔
      (∃ u rest, users = u :: rest ∧ get_domain_from_id u ≠ .ok server_name))
    ∧ (∀ e, check_database_before_upgrade users server_name = .error e →
        e = upgradeErrorMessage server_name) := by
  cases users with
  | nil =>
    refine ⟨⟨?_, ?_⟩, ?_⟩
    · rintro ⟨e, he⟩
      exact absurd he (by simp [check_database_before_upgrade])
    · rintro ⟨u, rest, hur, _⟩
      exact absurd hur (by simp)
    · intro e he
      exact absurd he (by simp [check_database_before_upgrade])
  | cons u rest =>
    obtain ⟨d, hd⟩ := h u rest rfl
    by_cases hds : d = server_name
    · refine ⟨⟨?_, ?_⟩, ?_⟩
      · rintro ⟨e, he⟩
        simp [check_database_before_upgrade, hd, hds] at he
      · rintro ⟨u', rest', hur, hne⟩
        injection hur with h1 _
        subst h1
        exact absurd (hds ▸ hd) hne
      · intro e he
        simp [check_database_before_upgrade, hd, hds] at he
    · refine ⟨⟨?_, ?_⟩, ?_⟩
      · intro _
        refine ⟨u, rest, rfl, ?_⟩
        rw [hd]
        intro hc
        injection hc with hc'
        exact hds hc'
      · intro _
        exact ⟨upgradeErrorMessage server_name,
          by simp [check_database_before_upgrade, hd, hds]⟩
      · intro e he
        simp [check_database_before_upgrade, hd, hds] at he
        exact he.symm

/-- Witness for C8: a store populated under `example.org` checked
against configured domain `other.org`. -/
theorem check_database_before_upgrade_spec_witness :
    ((∃ e, check_database_before_upgrade ["@alice:example.org"] "other.org" = .error e) ↔
      (∃ u rest, ["@alice:example.org"] = u :: rest ∧
        get_domain_from_id u ≠ .ok "other.org"))
    ∧ (∀ e, check_database_before_upgrade ["@alice:example.org"] "other.org" = .error e →
        e = upgradeErrorMessage "other.org") :=
  check_database_before_upgrade_spec ["@alice:example.org"] "other.org"
    (fun u rest hur => ⟨"example.org", by injection hur with h1 _; rw [← h1]; rfl⟩)

/-- C1: a successful call returns at most `limit` rows, and the returned
total is the number of joined rows matching the filter predicate with
the pagination window removed. -/
theorem get_users_paginate_count_and_limit
    (db : DB) (start limit : Nat) (user_id name : Option String)
    (guests deactivated : Bool) (order_by : String) (direction : Direction)
    (approved : Bool) (not_user_types : Option (List String))
    (rows : List OutRow) (total : Nat)
    (h : get_users_paginate db start limit user_id name guests deactivated order_by
      direction approved not_user_types = .ok (rows, total)) :
    rows.length ≤ limit ∧
      total = ((joinRows db).filter
        (rowPasses user_id name guests deactivated approved not_user_types)).length := by
  unfold get_users_paginate at h
  cases hc : UserSortOrder.fromString order_by with
  | none =>
    rw [hc] at h
    exact absurd h (by simp)
  | some col =>
    rw [hc] at h
    simp only [Except.ok.injEq, Prod.mk.injEq] at h
    obtain ⟨h1, h2⟩ := h
    exact ⟨h1 ▸ List.length_take_le _ _, h2.symm⟩

/-- Witness for C1 on a concrete one-user store. -/
theorem get_users_paginate_count_and_limit_witness :
    ([rowAlice] : List OutRow).length ≤ 3 ∧
      (1 : Nat) = ((joinRows dbAlice).filter
        (rowPasses none none true false true none)).length :=
  get_users_paginate_count_and_limit dbAlice 0 3 none none true false "name"
    .forwards true none [rowAlice] 1 (by rfl)

/-- C10: every returned row carries `creation_ts` equal to the stored
creation timestamp of its user multiplied by 1000. -/
theorem get_users_paginate_creation_ts_in_millis
    (db : DB) (start limit : Nat) (user_id name : Option String)
    (guests deactivated : Bool) (order_by : String) (direction : Direction)
    (approved : Bool) (not_user_types : Option (List String))
    (rows : List OutRow) (total : Nat)
    (h : get_users_paginate db start limit user_id name guests deactivated order_by
      direction approved not_user_types = .ok (rows, total)) :
    ∀ r ∈ rows, ∃ u ∈ db.users, r.name = u.name ∧ r.creation_ts = u.creation_ts * 1000 := by
  unfold get_users_paginate at h
  cases hc : UserSortOrder.fromString order_by with
  | none =>
    rw [hc] at h
    exact absurd h (by simp)
  | some col =>
    rw [hc] at h
    simp only [Except.ok.injEq, Prod.mk.injEq] at h
    obtain ⟨h1, _⟩ := h
    intro r hr
    rw [← h1] at hr
    have hr1 := List.mem_of_mem_drop (List.mem_of_mem_take hr)
    have hperm := List.perm_insertionSort (rowLe col direction)
      (((joinRows db).filter
        (rowPasses user_id name guests deactivated approved not_user_types)).map selectRow)
    have hr2 := hperm.mem_iff.mp hr1
    obtain ⟨j, hj, rfl⟩ := List.mem_map.mp hr2
    have hj2 : j ∈ joinRows db := (List.mem_filter.mp hj).1
    unfold joinRows at hj2
    obtain ⟨u, hu, rfl⟩ := List.mem_map.mp hj2
    exact ⟨u, hu, rfl, rfl⟩

/-- Witness for C10: the listed row of `dbAlice` has `creation_ts` 5000
for the stored value 5. -/
theorem get_users_paginate_creation_ts_in_millis_witness :
    ∃ u ∈ dbAlice.users, rowAlice.name = u.name ∧
      rowAlice.creation_ts = u.creation_ts * 1000 :=
  get_users_paginate_creation_ts_in_millis dbAlice 0 3 none none true false "name"
    .forwards true none [rowAlice] 1 (by rfl) rowAlice (by decide)

/-- C7: with a non-empty `name` term, the result is identical whether or
not a `user_id` term is also supplied: the raw `user_id` filter is
ignored entirely and only the name-based clause applies. -/
theorem get_users_paginate_name_overrides_user_id
    (db : DB) (start limit : Nat) (uid n : String)
    (guests deactivated : Bool) (order_by : String) (direction : Direction)
    (approved : Bool) (not_user_types : Option (List String))
    (hn : n ≠ "") :
    get_users_paginate db start limit (some uid) (some n) guests deactivated order_by
        direction approved not_user_types
      = get_users_paginate db start limit none (some n) guests deactivated order_by
        direction approved not_user_types := by
  have hpass : rowPasses (some uid) (some n) guests deactivated approved not_user_types
      = rowPasses none (some n) guests deactivated approved not_user_types := by
    funext j
    simp [rowPasses, nameOrUserIdClause, truthyStr, hn]
  unfold get_users_paginate
  rw [hpass]

/-- Witness for C7 at a concrete store and term pair. -/
theorem get_users_paginate_name_overrides_user_id_witness :
    get_users_paginate dbAlice 0 10 (some "zzz") (some "Ali") true false "name"
        .forwards true none
      = get_users_paginate dbAlice 0 10 none (some "Ali") true false "name"
        .forwards true none :=
  get_users_paginate_name_overrides_user_id dbAlice 0 10 "zzz" "Ali" true false "name"
    .forwards true none (by decide)

/-- The sentinel loop returns whether the empty string occurred and the
remaining tags in order. -/
theorem splitNotUserTypes_eq (ts : List String) :
    splitNotUserTypes ts = (ts.contains "", ts.filter (fun t => !(t == ""))) := by
  induction ts with
  | nil => rfl
  | cons t ts ih =>
    by_cases ht : t = ""
    · subst ht
      simp [splitNotUserTypes, ih]
    · simp [splitNotUserTypes, ih, ht, Ne.symm ht]

/-- C3: sentinel handling of the excluded-user-type filter: excluding
exactly the empty-string sentinel keeps only rows with a non-null type
tag; a sentinel plus literal tags keeps only rows whose type is non-null
and not one of the literal tags; literal tags without the sentinel keep
every row whose type is not one of the tags, null-typed rows included. -/
theorem notUserTypesClause_sentinel_spec
    (ut : Option String) (nuts : List String) (hne : nuts ≠ []) :
    (nuts = [""] → (notUserTypesClause nuts ut = true ↔ ut.isSome = true))
    ∧ (nuts.contains "" = true → nuts.filter (fun t => !(t == "")) ≠ [] →
        (notUserTypesClause nuts ut = true ↔
          ∃ t, ut = some t ∧ (nuts.filter (fun t => !(t == ""))).contains t = false))
    ∧ (nuts.contains "" = false →
        (notUserTypesClause nuts ut = true ↔
          ∀ t, ut = some t → nuts.contains t = false)) := by
  refine ⟨?_, ?_, ?_⟩
  · intro h1
    subst h1
    cases ut <;> simp [notUserTypesClause]
  · intro hin hflt
    have hin' : "" ∈ nuts := by
      simpa using hin
    have hn1 : nuts ≠ [""] := by
      intro hq
      rw [hq] at hflt
      simp at hflt
    have hfne : (nuts.filter (fun t => !(t == ""))).isEmpty = false := by
      cases hq : nuts.filter (fun t => !(t == "")) with
      | nil => exact absurd hq hflt
      | cons a l => rfl
    cases ut with
    | none =>
      simp [notUserTypesClause, hn1, splitNotUserTypes_eq, hin', inList3, hfne,
        not3, isTrue3]
    | some t =>
      by_cases hmem : t ∈ nuts <;> by_cases hte : t = "" <;>
        simp [notUserTypesClause, hn1, splitNotUserTypes_eq, hin', inList3, hfne,
          not3, isTrue3, hmem, hte]
  · intro hnotin
    have hnotin' : "" ∉ nuts := by
      simpa using hnotin
    have hn1 : nuts ≠ [""] := by
      intro hq
      rw [hq] at hnotin
      simp at hnotin
    have hfeq : nuts.filter (fun t => !(t == "")) = nuts := by
      apply List.filter_eq_self.mpr
      intro a ha
      simp only [Bool.not_eq_true', beq_eq_false_iff_ne]
      intro hq
      subst hq
      exact hnotin' ha
    have hfne : nuts.isEmpty = false := by
      cases nuts with
      | nil => exact absurd rfl hne
      | cons a l => rfl
    cases ut with
    | none =>
      simp [notUserTypesClause, hn1, splitNotUserTypes_eq, hfeq, inList3, hfne,
        not3, or3, isTrue3, hnotin']
    | some t =>
      by_cases hmem : t ∈ nuts <;>
        simp [notUserTypesClause, hn1, splitNotUserTypes_eq, hfeq, inList3, hfne,
          not3, or3, isTrue3, hnotin', hmem]

/-- Witness for C3: excluding only the sentinel keeps a `bot`-typed
row. -/
theorem notUserTypesClause_sentinel_spec_witness :
    notUserTypesClause [""] (some "bot") = true :=
  (((notUserTypesClause_sentinel_spec (some "bot") [""] (by decide)).1) rfl).mpr (by decide)

/-- A store whose only user has NULL approval status. -/
def dbNullApproved : DB := ⟨[⟨"@u:x", false, false, none, false, none, none, 5⟩], [], []⟩

/-- C4 counterexample: with `approved=False` requested, the single row
with NULL approval status is excluded and the listing comes back empty,
refuting the claim that rows with null approval are never excluded by
the approval clause. -/
theorem get_users_paginate_null_approval_excluded_cex :
    dbNullApproved.users.map User.approved = [none]
    ∧ get_users_paginate dbNullApproved 0 10 none none true false "name"
        .forwards false none
      = .ok ([], 0) :=
  ⟨rfl, rfl⟩

/-- C4 amended: with `approved=False`, the clause `approved IS FALSE`
keeps exactly the rows whose approval status is explicitly false, so
every returned row is explicitly unapproved; rows whose approval status
is true or NULL are excluded, NULL being treated as implicitly
approved. -/
theorem get_users_paginate_approved_false_keeps_only_explicit_false
    (db : DB) (start limit : Nat) (user_id name : Option String)
    (guests deactivated : Bool) (order_by : String) (direction : Direction)
    (not_user_types : Option (List String)) (rows : List OutRow) (total : Nat)
    (h : get_users_paginate db start limit user_id name guests deactivated order_by
      direction false not_user_types = .ok (rows, total)) :
    ∀ r ∈ rows, r.approved = some false := by
  unfold get_users_paginate at h
  cases hc : UserSortOrder.fromString order_by with
  | none =>
    rw [hc] at h
    exact absurd h (by simp)
  | some col =>
    rw [hc] at h
    simp only [Except.ok.injEq, Prod.mk.injEq] at h
    obtain ⟨h1, _⟩ := h
    intro r hr
    rw [← h1] at hr
    have hr1 := List.mem_of_mem_drop (List.mem_of_mem_take hr)
    have hperm := List.perm_insertionSort (rowLe col direction)
      (((joinRows db).filter
        (rowPasses user_id name guests deactivated false not_user_types)).map selectRow)
    have hr2 := hperm.mem_iff.mp hr1
    obtain ⟨j, hj, rfl⟩ := List.mem_map.mp hr2
    have hp := (List.mem_filter.mp hj).2
    simp only [rowPasses, Bool.false_or, Bool.and_eq_true, beq_iff_eq] at hp
    exact hp.1.2

/-- Witness for C4 amended: an explicitly unapproved user is listed with
approval status false. -/
theorem get_users_paginate_approved_false_witness :
    (⟨"@u:x", none, false, false, false, none, none, none, 5000, some false, false⟩ :
        OutRow).approved = some false :=
  get_users_paginate_approved_false_keeps_only_explicit_false
    ⟨[⟨"@u:x", false, false, none, false, none, some false, 5⟩], [], []⟩
    0 10 none none true false "name" .forwards none
    [⟨"@u:x", none, false, false, false, none, none, none, 5000, some false, false⟩] 1
    (by rfl) _ (by decide)

/-- The empty pattern matches only the empty word. -/
theorem likeMatch_nil (s : List Char) : likeMatch [] s = true ↔ s = [] := by
  cases s <;> simp [likeMatch]

/-- A leading percent matches a word exactly when the rest of the
pattern matches after dropping some front segment. -/
theorem likeMatch_percent_cons (p : List Char) (s : List Char) :
    likeMatch ('%' :: p) s = true ↔ ∃ s1 s2, s = s1 ++ s2 ∧ likeMatch p s2 = true := by
  simp only [likeMatch, reduceIte, List.any_eq_true]
  constructor
  · rintro ⟨s2, hs2, hm⟩
    rw [List.mem_tails] at hs2
    obtain ⟨s1, rfl⟩ := hs2
    exact ⟨s1, s2, rfl, hm⟩
  · rintro ⟨s1, s2, rfl, hm⟩
    exact ⟨s2, (List.mem_tails _ _).mpr ⟨s1, rfl⟩, hm⟩

/-- A literal character at the head of the pattern consumes exactly that
character. -/
theorem likeMatch_lit_cons (c : Char) (hc1 : c ≠ '%') (hc2 : c ≠ '_')
    (p : List Char) (s : List Char) :
    likeMatch (c :: p) s = true ↔ ∃ s', s = c :: s' ∧ likeMatch p s' = true := by
  cases s with
  | nil => simp [likeMatch, hc1]
  | cons d s' =>
    simp only [likeMatch, if_neg hc1, if_neg hc2, Bool.and_eq_true, decide_eq_true_eq]
    constructor
    · rintro ⟨rfl, hm⟩
      exact ⟨s', rfl, hm⟩
    · rintro ⟨s'', heq, hm⟩
      injection heq with h1 h2
      subst h1
      subst h2
      exact ⟨rfl, hm⟩

/-- A run of wildcard-free characters at the head of the pattern
consumes exactly itself. -/
theorem likeMatch_lit_append (l : List Char)
    (hl : ∀ c ∈ l, c ≠ '%' ∧ c ≠ '_') (p : List Char) (s : List Char) :
    likeMatch (l ++ p) s = true ↔ ∃ s', s = l ++ s' ∧ likeMatch p s' = true := by
  induction l generalizing s with
  | nil => simp
  | cons c l ih =>
    have hc := hl c (List.mem_cons_self c l)
    rw [List.cons_append, likeMatch_lit_cons c hc.1 hc.2]
    constructor
    · rintro ⟨s1, rfl, hm⟩
      obtain ⟨s2, rfl, hm2⟩ :=
        (ih (fun d hd => hl d (List.mem_cons_of_mem c hd)) s1).mp hm
      exact ⟨s2, rfl, hm2⟩
    · rintro ⟨s1, rfl, hm⟩
      exact ⟨l ++ s1, rfl, (ih (fun d hd => hl d (List.mem_cons_of_mem c hd)) _).mpr
        ⟨s1, rfl, hm⟩⟩

/-- A bare percent pattern matches every word. -/
theorem likeMatch_percent_nil (s : List Char) : likeMatch ['%'] s = true := by
  rw [likeMatch_percent_cons]
  exact ⟨s, [], by simp, by simp [likeMatch]⟩

/-- Evaluation of the handle pattern `"@%" + t + "%:%"`: it matches a
word exactly when the word is an at sign, then any text with `t`
occurring somewhere in it, then a colon, then anything. -/
theorem likeMatch_handle_pattern (t : List Char)
    (ht : ∀ c ∈ t, c ≠ '%' ∧ c ≠ '_') (s : List Char) :
    likeMatch ('@' :: '%' :: (t ++ '%' :: ':' :: ['%'])) s = true ↔
      ∃ a b c, s = '@' :: (a ++ t ++ b ++ ':' :: c) := by
  rw [likeMatch_lit_cons '@' (by decide) (by decide)]
  constructor
  · rintro ⟨s1, rfl, hm⟩
    rw [likeMatch_percent_cons] at hm
    obtain ⟨a, s2, rfl, hm⟩ := hm
    rw [likeMatch_lit_append t ht] at hm
    obtain ⟨s3, rfl, hm⟩ := hm
    rw [likeMatch_percent_cons] at hm
    obtain ⟨b, s4, rfl, hm⟩ := hm
    rw [likeMatch_lit_cons ':' (by decide) (by decide)] at hm
    obtain ⟨s5, rfl, _⟩ := hm
    exact ⟨a, b, s5, by simp⟩
  · rintro ⟨a, b, c, rfl⟩
    refine ⟨a ++ t ++ b ++ ':' :: c, by simp, ?_⟩
    rw [likeMatch_percent_cons]
    refine ⟨a, t ++ b ++ ':' :: c, by simp, ?_⟩
    rw [likeMatch_lit_append t ht]
    refine ⟨b ++ ':' :: c, by simp, ?_⟩
    rw [likeMatch_percent_cons]
    refine ⟨b, ':' :: c, rfl, ?_⟩
    rw [likeMatch_lit_cons ':' (by decide) (by decide)]
    exact ⟨c, rfl, likeMatch_percent_nil c⟩

/-- Evaluation of the containment pattern `"%" + t + "%"`: it matches
exactly the words in which `t` occurs. -/
theorem likeMatch_contain_pattern (t : List Char)
    (ht : ∀ c ∈ t, c ≠ '%' ∧ c ≠ '_') (s : List Char) :
    likeMatch ('%' :: (t ++ ['%'])) s = true ↔ ∃ a b, s = a ++ t ++ b := by
  rw [likeMatch_percent_cons]
  constructor
  · rintro ⟨a, s2, rfl, hm⟩
    rw [likeMatch_lit_append t ht] at hm
    obtain ⟨b, rfl, _⟩ := hm
    exact ⟨a, b, by simp⟩
  · rintro ⟨a, b, rfl⟩
    refine ⟨a, t ++ b, by simp, ?_⟩
    rw [likeMatch_lit_append t ht]
    exact ⟨b, rfl, likeMatch_percent_nil b⟩

/-- C2 amended: for a term free of LIKE wildcard characters, the name
clause matches a row exactly when the lowercased term occurs somewhere
between the leading at sign and a later colon of the handle — a
substring of that span, not necessarily at its front — or the lowercased
display name contains the lowercased term. -/
theorem nameClause_characterization
    (term : String) (j : JoinedRow)
    (hm : ∀ c ∈ lowerData term, c ≠ '%' ∧ c ≠ '_') :
    nameClause term j = true ↔
      ((∃ a b c, j.u.name.data = '@' :: (a ++ lowerData term ++ b ++ ':' :: c))
        ∨ (∃ pr d a b, j.p = some pr ∧ pr.displayname = some d ∧
            lowerData d = a ++ lowerData term ++ b)) := by
  obtain ⟨u, p, er⟩ := j
  cases p with
  | none =>
    simp [nameClause, likeMatch_handle_pattern (lowerData term) hm]
  | some pr =>
    obtain ⟨fid, dn, av⟩ := pr
    cases dn with
    | none =>
      simp [nameClause, likeMatch_handle_pattern (lowerData term) hm]
    | some d =>
      simp [nameClause, likeMatch_handle_pattern (lowerData term) hm,
        likeMatch_contain_pattern (lowerData term) hm]

/-- Witness for C2 amended at a concrete term and row. -/
theorem nameClause_characterization_witness :
    nameClause "bob" ⟨⟨"@xbob:s", false, false, none, false, none, none, 5⟩, none, false⟩
        = true ↔
      ((∃ a b c, ("@xbob:s" : String).data = '@' :: (a ++ lowerData "bob" ++ b ++ ':' :: c))
        ∨ (∃ pr d a b, (none : Option Profile) = some pr ∧ pr.displayname = some d ∧
            lowerData d = a ++ lowerData "bob" ++ b)) :=
  nameClause_characterization "bob"
    ⟨⟨"@xbob:s", false, false, none, false, none, none, 5⟩, none, false⟩ (by decide)

/-- A store whose single user's handle contains the search term strictly
inside the local part, with no profile row. -/
def dbXbob : DB := ⟨[⟨"@xbob:s", false, false, none, false, none, none, 5⟩], [], []⟩

/-- The output row of listing `dbXbob`. -/
def rowXbob : OutRow :=
  ⟨"@xbob:s", none, false, false, false, none, none, none, 5000, none, false⟩

/-- A name clause that follows the spec sentence verbatim: the handle
matches pattern `@<lowercased-term>%:*` — the lowercased term starts the
domain-qualified local part — or the lowercased display name contains
the lowercased term. -/
def specNameClause (term : String) (handle : String)
    (displayname : Option String) : Bool :=
  likeMatch ('@' :: (lowerData term ++ '%' :: ':' :: ['%'])) handle.data
    || (match displayname with
        | none => false
        | some d => likeMatch ('%' :: (lowerData term ++ ['%'])) (lowerData d))

/-- C2 counterexample: searching `dbXbob` for the name term `bob`
returns the `@xbob:s` row even though the spec's predicate rejects it —
`bob` does not start the local part `xbob` and there is no display
name. -/
theorem get_users_paginate_name_clause_cex :
    get_users_paginate dbXbob 0 10 none (some "bob") true false "name"
        .forwards true none
      = .ok ([rowXbob], 1)
    ∧ specNameClause "bob" "@xbob:s" none = false :=
  ⟨rfl, rfl⟩

/-- Key comparison is total. -/
theorem SKey.leB_total (a b : SKey) : a.leB b = true ∨ b.leB a = true := by
  cases a <;> cases b <;> simp [SKey.leB] <;> exact le_total _ _

/-- Key comparison is transitive. -/
theorem SKey.leB_trans {a b c : SKey} (h1 : a.leB b = true) (h2 : b.leB c = true) :
    a.leB c = true := by
  cases a <;> cases b <;> cases c <;> simp_all [SKey.leB] <;> exact le_trans h1 h2

/-- Key comparison is antisymmetric. -/
theorem SKey.leB_antisymm {a b : SKey} (h1 : a.leB b = true) (h2 : b.leB a = true) :
    a = b := by
  cases a <;> cases b <;> simp_all [SKey.leB]
  · exact le_antisymm h1 h2
  · exact String.toList_inj.mp (le_antisymm h1 h2)

instance (col : UserSortOrder) (dir : Direction) : IsTotal OutRow (rowLe col dir) where
  total a b := by
    unfold rowLe rowLeB
    by_cases hk : outKey col a = outKey col b
    · rw [if_pos hk, if_pos hk.symm]
      simp only [decide_eq_true_eq]
      exact le_total _ _
    · rw [if_neg hk, if_neg (fun hq => hk hq.symm)]
      cases dir <;> simp only [dirLeB] <;> exact SKey.leB_total _ _

instance (col : UserSortOrder) (dir : Direction) : IsTrans OutRow (rowLe col dir) where
  trans a b c hab hbc := by
    unfold rowLe rowLeB at hab hbc ⊢
    by_cases h1 : outKey col a = outKey col b <;>
      by_cases h2 : outKey col b = outKey col c
    · rw [if_pos h1] at hab
      rw [if_pos h2] at hbc
      rw [if_pos (h1.trans h2)]
      simp only [decide_eq_true_eq] at hab hbc ⊢
      exact le_trans hab hbc
    · have h3 : outKey col a ≠ outKey col c := fun hq => h2 (h1 ▸ hq)
      rw [if_neg h2] at hbc
      rw [if_neg h3, h1]
      exact hbc
    · have h3 : outKey col a ≠ outKey col c := fun hq => h1 (hq.trans h2.symm)
      rw [if_neg h1] at hab
      rw [if_neg h3, ← h2]
      exact hab
    · by_cases h3 : outKey col a = outKey col c
      · exfalso
        rw [if_neg h1] at hab
        rw [if_neg h2, ← h3] at hbc
        cases dir with
        | forwards =>
          simp only [dirLeB] at hab hbc
          exact h1 (SKey.leB_antisymm hab hbc)
        | backwards =>
          simp only [dirLeB] at hab hbc
          exact h1 (SKey.leB_antisymm hbc hab)
      · rw [if_neg h1] at hab
        rw [if_neg h2] at hbc
        rw [if_neg h3]
        cases dir with
        | forwards =>
          simp only [dirLeB] at hab hbc ⊢
          exact SKey.leB_trans hab hbc
        | backwards =>
          simp only [dirLeB] at hab hbc ⊢
          exact SKey.leB_trans hbc hab

/-- C5: in a successful listing, any two returned rows with equal
primary sort keys appear in handle-ascending order, whatever the
requested sort column and direction, so the combined ordering is
total. -/
theorem get_users_paginate_secondary_sort_by_name
    (db : DB) (start limit : Nat) (user_id name : Option String)
    (guests deactivated : Bool) (order_by : String) (direction : Direction)
    (approved : Bool) (not_user_types : Option (List String))
    (col : UserSortOrder) (rows : List OutRow) (total : Nat)
    (hcol : UserSortOrder.fromString order_by = some col)
    (h : get_users_paginate db start limit user_id name guests deactivated order_by
      direction approved not_user_types = .ok (rows, total))
    (i j : Nat) (hi : i < rows.length) (hj : j < rows.length) (hij : i < j)
    (hkey : outKey col rows[i] = outKey col rows[j]) :
    rows[i].name ≤ rows[j].name := by
  unfold get_users_paginate at h
  rw [hcol] at h
  simp only [Except.ok.injEq, Prod.mk.injEq] at h
  obtain ⟨h1, _⟩ := h
  have hsorted : List.Sorted (rowLe col direction)
      ((((joinRows db).filter (rowPasses user_id name guests deactivated approved
        not_user_types)).map selectRow).insertionSort (rowLe col direction)) :=
    List.sorted_insertionSort _ _
  have hrows : List.Sorted (rowLe col direction) rows := by
    rw [← h1]
    exact hsorted.sublist ((List.take_sublist _ _).trans (List.drop_sublist _ _))
  have hrel := List.pairwise_iff_getElem.mp hrows i j hi hj hij
  unfold rowLe rowLeB at hrel
  rw [if_pos hkey] at hrel
  exact String.le_iff_toList_le.mpr (of_decide_eq_true hrel)

/-- A two-user store with equal creation timestamps, stored in
handle-descending order. -/
def dbTwinTs : DB :=
  ⟨[⟨"@b:x", false, false, none, false, none, none, 5⟩,
    ⟨"@a:x", false, false, none, false, none, none, 5⟩], [], []⟩

/-- The listed rows of `dbTwinTs`. -/
def rowTwinA : OutRow :=
  ⟨"@a:x", none, false, false, false, none, none, none, 5000, none, false⟩

/-- Second listed row of `dbTwinTs`. -/
def rowTwinB : OutRow :=
  ⟨"@b:x", none, false, false, false, none, none, none, 5000, none, false⟩

/-- Witness for C5: under a descending creation-time sort, the two rows
with equal timestamps come back in handle-ascending order. -/
theorem get_users_paginate_secondary_sort_by_name_witness :
    rowTwinA.name ≤ rowTwinB.name :=
  get_users_paginate_secondary_sort_by_name dbTwinTs 0 10 none none true false
    "creation_ts" .backwards true none .creation_ts [rowTwinA, rowTwinB] 2
    (by decide) (by rfl) 0 1 (by decide) (by decide) (by decide) (by decide)

/-- A value as the database driver hands it to Python: SQL NULL, an
integer, a string, or a driver-level boolean. -/
inductive SqlVal where
  | vnull
  | vint (i : Int)
  | vstr (s : String)
  | vbool (b : Bool)
deriving DecidableEq

/-- How the engine materializes a stored boolean column in fetched rows:
an engine with integer booleans (SQLite) yields 0/1, any other engine a
real boolean. -/
def engineBool (boolsAsInts : Bool) (b : Bool) : SqlVal :=
  if boolsAsInts then .vint (if b then 1 else 0) else .vbool b

/-- Engine representation of a nullable boolean column. -/
def engineOptBool (boolsAsInts : Bool) : Option Bool → SqlVal
  | none => .vnull
  | some b => engineBool boolsAsInts b

/-- Engine representation of a nullable string column. -/
def engineOptStr : Option String → SqlVal
  | none => .vnull
  | some s => .vstr s

/-- The dictionary `cursor_to_dict` builds for one page-query row,
before any coercion in Python: the SELECT-list field names with
engine-typed values.  The derived `eu.user_id is not null as erased`
expression comes back through the same boolean representation. -/
def rawWireRow (boolsAsInts : Bool) (r : OutRow) : List (String × SqlVal) :=
  [("name", .vstr r.name),
   ("user_type", engineOptStr r.user_type),
   ("is_guest", engineBool boolsAsInts r.is_guest),
   ("admin", engineBool boolsAsInts r.admin),
   ("deactivated", engineBool boolsAsInts r.deactivated),
   ("shadow_banned", engineOptBool boolsAsInts r.shadow_banned),
   ("displayname", engineOptStr r.displayname),
   ("avatar_url", engineOptStr r.avatar_url),
   ("creation_ts", .vint r.creation_ts),
   ("approved", engineOptBool boolsAsInts r.approved),
   ("erased", engineBool boolsAsInts r.erased)]

/-- Python `bool(...)` truthiness of a fetched value. -/
def pyBool : SqlVal → Bool
  | .vnull => false
  | .vint i => !(i == 0)
  | .vstr s => !(s == "")
  | .vbool b => b

/-- The transaction coerces exactly these columns:
`columns_to_boolify = ["erased"]`. -/
def columns_to_boolify : List String := ["erased"]

/-- The per-row loop `user[column] = bool(user[column])` over
`columns_to_boolify`. -/
def boolifyRow (row : List (String × SqlVal)) : List (String × SqlVal) :=
  row.map fun kv =>
    if columns_to_boolify.contains kv.1 then (kv.1, .vbool (pyBool kv.2)) else kv

/-- A returned user dictionary exactly as the caller receives it. -/
def wireRow (boolsAsInts : Bool) (r : OutRow) : List (String × SqlVal) :=
  boolifyRow (rawWireRow boolsAsInts r)

/-- Coercing the engine representation of a boolean recovers it. -/
theorem pyBool_engineBool (e b : Bool) : pyBool (engineBool e b) = b := by
  cases e <;> cases b <;> rfl

/-- A store whose single user is a guest. -/
def dbGuest : DB := ⟨[⟨"@g:x", true, false, none, false, none, none, 5⟩], [], []⟩

/-- The output row of listing `dbGuest`. -/
def rowGuest : OutRow :=
  ⟨"@g:x", none, true, false, false, none, none, none, 5000, none, false⟩

/-- C6 counterexample: on an engine that represents booleans as
integers, the guest row comes back with `is_guest` as the integer 1 and
not as a boolean, because only `erased` is coerced. -/
theorem get_users_paginate_bool_fields_not_coerced_cex :
    get_users_paginate dbGuest 0 10 none none true false "name" .forwards true none
      = .ok ([rowGuest], 1)
    ∧ (wireRow true rowGuest).lookup "is_guest" = some (.vint 1)
    ∧ SqlVal.vint 1 ≠ SqlVal.vbool true
    ∧ SqlVal.vint 1 ≠ SqlVal.vbool false :=
  ⟨rfl, rfl, by decide, by decide⟩

/-- C6 amended: every returned row carries `erased` as a real boolean —
the one column in `columns_to_boolify` — true exactly when the erasure
join matched; the other boolean-typed output fields are left in the
engine representation, so an integer-boolean engine hands them to the
caller as 0/1 integers. -/
theorem wireRow_boolify_spec
    (db : DB) (start limit : Nat) (user_id name : Option String)
    (guests deactivated : Bool) (order_by : String) (direction : Direction)
    (approved : Bool) (not_user_types : Option (List String))
    (rows : List OutRow) (total : Nat) (e : Bool)
    (h : get_users_paginate db start limit user_id name guests deactivated order_by
      direction approved not_user_types = .ok (rows, total)) :
    ∀ r ∈ rows,
      (wireRow e r).lookup "erased"
          = some (.vbool (db.erased_users.contains r.name))
        ∧ (wireRow e r).lookup "is_guest" = some (engineBool e r.is_guest)
        ∧ (wireRow e r).lookup "admin" = some (engineBool e r.admin)
        ∧ (wireRow e r).lookup "deactivated" = some (engineBool e r.deactivated)
        ∧ (wireRow e r).lookup "shadow_banned" = some (engineOptBool e r.shadow_banned)
        ∧ (wireRow e r).lookup "approved" = some (engineOptBool e r.approved) := by
  unfold get_users_paginate at h
  cases hc : UserSortOrder.fromString order_by with
  | none =>
    rw [hc] at h
    exact absurd h (by simp)
  | some col =>
    rw [hc] at h
    simp only [Except.ok.injEq, Prod.mk.injEq] at h
    obtain ⟨h1, _⟩ := h
    intro r hr
    rw [← h1] at hr
    have hr1 := List.mem_of_mem_drop (List.mem_of_mem_take hr)
    have hperm := List.perm_insertionSort (rowLe col direction)
      (((joinRows db).filter
        (rowPasses user_id name guests deactivated approved not_user_types)).map selectRow)
    have hr2 := hperm.mem_iff.mp hr1
    obtain ⟨j, hj, rfl⟩ := List.mem_map.mp hr2
    have hj2 : j ∈ joinRows db := (List.mem_filter.mp hj).1
    unfold joinRows at hj2
    obtain ⟨u, _, rfl⟩ := List.mem_map.mp hj2
    refine ⟨?_, ?_, ?_, ?_, ?_, ?_⟩
    · show (wireRow e (selectRow _)).lookup "erased" = _
      simp [wireRow, boolifyRow, rawWireRow, columns_to_boolify, selectRow,
        List.lookup, pyBool_engineBool]
    all_goals
      simp [wireRow, boolifyRow, rawWireRow, columns_to_boolify, List.lookup]

/-- Witness for C6 amended: the guest row of `dbGuest` on an
integer-boolean engine. -/
theorem wireRow_boolify_spec_witness :
    (wireRow true rowGuest).lookup "erased"
        = some (.vbool (dbGuest.erased_users.contains rowGuest.name))
      ∧ (wireRow true rowGuest).lookup "is_guest"
        = some (engineBool true rowGuest.is_guest)
      ∧ (wireRow true rowGuest).lookup "admin"
        = some (engineBool true rowGuest.admin)
      ∧ (wireRow true rowGuest).lookup "deactivated"
        = some (engineBool true rowGuest.deactivated)
      ∧ (wireRow true rowGuest).lookup "shadow_banned"
        = some (engineOptBool true rowGuest.shadow_banned)
      ∧ (wireRow true rowGuest).lookup "approved"
        = some (engineOptBool true rowGuest.approved) :=
  wireRow_boolify_spec dbGuest 0 10 none none true false "name" .forwards true none
    [rowGuest] 1 true (by rfl) rowGuest (by decide)
